import Mathlib

/-!
Shallow embedding of the core of `src/main.py` (a FastAPI backend that
compiles and runs C submissions and validates them against a fixed
four-phase curriculum).

Modelling conventions:
* Python regular expressions are embedded as specialised matchers over
  `List Char`.  Each source pattern appears as one `match…At` definition
  built from small combinators (`lit`, `dropWs`, `ws1`, `chr`,
  `takeDigits`, `word1`); `reSearch` scans for the leftmost matching
  start position, mirroring `re.search`, and `parseDiagAux` mirrors the
  lazy `(.*?)` prefix of the anchored `re.match` used by
  `parse_diagnostics`.
* The character classes `\s`, `\d` and `\w` are modelled over their
  ASCII extent (`\s` additionally includes the Unicode whitespace code
  points Python treats as `\s`); non-ASCII letters/digits are out of
  scope of this development.
* Subprocess invocations are modelled by a `ProcOutcome` describing the
  environment's answer (timeout, or completion with exit code and
  captured streams); `compile_and_run` embeds the control flow of the
  `/api/compile` handler over those outcomes.
* `validate` returns `none` where the handler raises HTTP 400
  (unknown phase); the `run_stdout` request field is never read by the
  handler and is omitted.
-/

/-- Characters matched by Python's `\s` (whitespace), ASCII control
whitespace plus the Unicode whitespace code points of `str.isspace`. -/
def pySpaceChars : List Char :=
  [' ', '\t', '\n', '\r', '\x0b', '\x0c',
   '\x1c', '\x1d', '\x1e', '\x1f', '\x85', '\xa0',
   ' ', ' ', ' ', ' ', ' ', ' ', ' ',
   ' ', ' ', ' ', ' ', ' ',
   ' ', ' ', ' ', ' ', '　']

def isPySpace (c : Char) : Bool := pySpaceChars.contains c

/-- Python's `\d`, modelled over ASCII digits. -/
def isPyDigit (c : Char) : Bool := c.isDigit

/-- Python's `\w`, modelled over ASCII word characters. -/
def isPyWord (c : Char) : Bool := c.isAlpha || c.isDigit || c = '_'

/-- Match a literal character sequence, returning the rest of the input. -/
def lit : List Char → List Char → Option (List Char)
  | [], cs => some cs
  | _ :: _, [] => none
  | t :: ts, c :: cs => if c = t then lit ts cs else none

/-- Greedily drop `\s*`. -/
def dropWs : List Char → List Char
  | [] => []
  | c :: cs => if isPySpace c then dropWs cs else c :: cs

/-- Match `\s+` (greedy). -/
def ws1 : List Char → Option (List Char)
  | [] => none
  | c :: cs => if isPySpace c then some (dropWs cs) else none

/-- Match a single literal character. -/
def chr (t : Char) : List Char → Option (List Char) := fun cs =>
  match cs with
  | [] => none
  | c :: r => if c = t then some r else none

/-- Greedily split off a maximal run of digits (`\d*`). -/
def takeDigits : List Char → List Char × List Char
  | [] => ([], [])
  | c :: cs =>
    if isPyDigit c then
      let p := takeDigits cs
      (c :: p.1, p.2)
    else ([], c :: cs)

/-- Match `\d+` (greedy), returning the digits and the rest. -/
def digits1 (cs : List Char) : Option (List Char × List Char) :=
  let p := takeDigits cs
  if p.1 = [] then none else some p

/-- Greedily drop `\w*`. -/
def dropWord : List Char → List Char
  | [] => []
  | c :: cs => if isPyWord c then dropWord cs else c :: cs

/-- Match `\w+` (greedy). -/
def word1 : List Char → Option (List Char)
  | [] => none
  | c :: cs => if isPyWord c then some (dropWord cs) else none

/-- Leftmost search for a matcher, mirroring `re.search`. -/
def reSearch {α : Type} (m : List Char → Option α) : List Char → Option α
  | [] => m []
  | c :: cs =>
    match m (c :: cs) with
    | some a => some a
    | none => reSearch m cs

/-! ### The validation regexes of `validate` (src/main.py lines 321-384) -/

/-- Pattern `gravity\s*=\s*9\.81` matched at the current position. -/
def matchGravityAt (cs : List Char) : Option (List Char) :=
  (lit ("gravity".toList) cs).bind (fun r1 =>
  (chr '=' (dropWs r1)).bind (fun r2 =>
  lit ("9.81".toList) (dropWs r2)))

/-- Pattern `for\s*\(\s*int\s+i\s*=\s*0\s*;\s*i\s*<\s*10\s*;` at the
current position. -/
def matchLoopAt (cs : List Char) : Option (List Char) :=
  (lit ("for".toList) cs).bind (fun r1 =>
  (chr '(' (dropWs r1)).bind (fun r2 =>
  (lit ("int".toList) (dropWs r2)).bind (fun r3 =>
  (ws1 r3).bind (fun r4 =>
  (chr 'i' r4).bind (fun r5 =>
  (chr '=' (dropWs r5)).bind (fun r6 =>
  (chr '0' (dropWs r6)).bind (fun r7 =>
  (chr ';' (dropWs r7)).bind (fun r8 =>
  (chr 'i' (dropWs r8)).bind (fun r9 =>
  (chr '<' (dropWs r9)).bind (fun r10 =>
  (lit ("10".toList) (dropWs r10)).bind (fun r11 =>
  chr ';' (dropWs r11))))))))))))

/-- Pattern `time_t|unsigned\s+long\s+long|uint64_t` at the current
position (alternatives tried left to right). -/
def matchTimeAt (cs : List Char) : Option (List Char) :=
  match lit ("time_t".toList) cs with
  | some r => some r
  | none =>
    match (lit ("unsigned".toList) cs).bind (fun r1 =>
          (ws1 r1).bind (fun r2 =>
          (lit ("long".toList) r2).bind (fun r3 =>
          (ws1 r3).bind (fun r4 =>
          lit ("long".toList) r4)))) with
    | some r => some r
    | none => lit ("uint64_t".toList) cs

/-- Pattern `typedef\s+void\s*\*\s*timestamp_t` at the current position. -/
def matchPtrTimeAt (cs : List Char) : Option (List Char) :=
  (lit ("typedef".toList) cs).bind (fun r1 =>
  (ws1 r1).bind (fun r2 =>
  (lit ("void".toList) r2).bind (fun r3 =>
  (chr '*' (dropWs r3)).bind (fun r4 =>
  lit ("timestamp_t".toList) (dropWs r4)))))

/-- Shared head `char\s+emotion\s*\[` of the two emotion-buffer patterns. -/
def emotionHead (cs : List Char) : Option (List Char) :=
  (lit ("char".toList) cs).bind (fun r1 =>
  (ws1 r1).bind (fun r2 =>
  (lit ("emotion".toList) r2).bind (fun r3 =>
  chr '[' (dropWs r3))))

/-- The alternative `(2\d|3\d)`: one of `2` or `3` followed by a digit. -/
def twoDigit23 (cs : List Char) : Option (List Char) :=
  match cs with
  | c1 :: c2 :: r =>
    if (c1 = '2' || c1 = '3') && isPyDigit c2 then some r else none
  | _ => none

/-- Pattern `char\s+emotion\s*\[\s*(2\d|3\d)\s*\]` at the current position. -/
def matchE1At (cs : List Char) : Option (List Char) :=
  (emotionHead cs).bind (fun u =>
  (twoDigit23 (dropWs u)).bind (fun v =>
  chr ']' (dropWs v)))

/-- Pattern `char\s+emotion\s*\[\s*\d+\s*\]` at the current position. -/
def matchE2At (cs : List Char) : Option (List Char) :=
  (emotionHead cs).bind (fun u =>
  (digits1 (dropWs u)).bind (fun p =>
  chr ']' (dropWs p.2)))

/-- Pattern `free\s*\(\s*\w+\s*\)\s*;` at the current position. -/
def matchFreesAt (cs : List Char) : Option (List Char) :=
  (lit ("free".toList) cs).bind (fun r1 =>
  (chr '(' (dropWs r1)).bind (fun r2 =>
  (word1 (dropWs r2)).bind (fun r3 =>
  (chr ')' (dropWs r3)).bind (fun r4 =>
  chr ';' (dropWs r4)))))

/-- Pattern `void\s*\*\s*remember\s*\(` at the current position. -/
def matchRememberAt (cs : List Char) : Option (List Char) :=
  (lit ("void".toList) cs).bind (fun r1 =>
  (chr '*' (dropWs r1)).bind (fun r2 =>
  (lit ("remember".toList) (dropWs r2)).bind (fun r3 =>
  chr '(' (dropWs r3))))

inductive ChoiceTok where
  | saveAll
  | preserve
deriving DecidableEq, Repr

/-- Pattern `return\s+(SAVE_ALL|PRESERVE_CONSCIOUSNESS)\s*;` at the
current position, returning the captured alternative. -/
def matchChoiceAt (cs : List Char) : Option ChoiceTok :=
  (lit ("return".toList) cs).bind (fun r1 =>
  (ws1 r1).bind (fun r2 =>
  match lit ("SAVE_ALL".toList) r2 with
  | some r3 => (chr ';' (dropWs r3)).map (fun _ => ChoiceTok.saveAll)
  | none =>
    match lit ("PRESERVE_CONSCIOUSNESS".toList) r2 with
    | some r3 => (chr ';' (dropWs r3)).map (fun _ => ChoiceTok.preserve)
    | none => none))

/-! ### String-level predicates used by `validate` -/

def hasGravity (s : String) : Bool := (reSearch matchGravityAt s.toList).isSome

def hasLoopFixed (s : String) : Bool := (reSearch matchLoopAt s.toList).isSome

def usesTime (s : String) : Bool := (reSearch matchTimeAt s.toList).isSome

/-- `not_ptr_time`: the `typedef void* timestamp_t` pattern is absent. -/
def notPtrTime (s : String) : Bool := !(reSearch matchPtrTimeAt s.toList).isSome

/-- `emotion_ok`: either emotion-buffer pattern is present
(src/main.py line 339). -/
def emotionOk (s : String) : Bool :=
  (reSearch matchE1At s.toList).isSome || (reSearch matchE2At s.toList).isSome

def hasFrees (s : String) : Bool := (reSearch matchFreesAt s.toList).isSome

def hasRememberDecl (s : String) : Bool :=
  (reSearch matchRememberAt s.toList).isSome

/-- The captured token of the `choice` regex, leftmost match. -/
def choiceOf (s : String) : Option ChoiceTok := reSearch matchChoiceAt s.toList

/-- `no_errors = not (req.compile_stderr or "")`: true iff the optional
compiler stderr is absent or empty. -/
def noErrors : Option String → Bool
  | none => true
  | some s => s == ""

/-! ### Diagnostic parsing (src/main.py lines 176-190) -/

structure Diag where
  file : String
  line : Nat
  column : Nat
  kind : String
  message : String
deriving DecidableEq, Repr

/-- Base-10 value of a digit string, as `int` applied to `\d+` text. -/
def digitsToNat (ds : List Char) : Nat :=
  ds.foldl (fun n c => 10 * n + (c.toNat - '0'.toNat)) 0

/-- The kind alternative `(warning|error)`, tried left to right. -/
def kindAt (cs : List Char) : Option (String × List Char) :=
  match lit ("warning".toList) cs with
  | some r => some ("warning", r)
  | none =>
    match lit ("error".toList) cs with
    | some r => some ("error", r)
    | none => none

/-- The anchored tail `:(\d+):(\d+):\s*(warning|error):\s*(.*)$` of the
diagnostic regex, matched at the current position. -/
def tryTailAt (cs : List Char) : Option (Nat × Nat × String × String) :=
  (chr ':' cs).bind (fun r1 =>
  (digits1 r1).bind (fun p1 =>
  (chr ':' p1.2).bind (fun r2 =>
  (digits1 r2).bind (fun p2 =>
  (chr ':' p2.2).bind (fun r3 =>
  (kindAt (dropWs r3)).bind (fun kp =>
  (chr ':' kp.2).bind (fun r4 =>
  some (digitsToNat p1.1, digitsToNat p2.1, kp.1, String.mk (dropWs r4)))))))))

/-- Scanner for the lazy `(.*?)` file group: try the tail at the current
position, else shift one character into the file group. -/
def parseDiagAux : List Char → List Char → Option Diag
  | fileRev, [] =>
    match tryTailAt [] with
    | some (ln, col, k, msg) =>
      some ⟨String.mk fileRev.reverse, ln, col, k, msg⟩
    | none => none
  | fileRev, c :: rest2 =>
    match tryTailAt (c :: rest2) with
    | some (ln, col, k, msg) =>
      some ⟨String.mk fileRev.reverse, ln, col, k, msg⟩
    | none => parseDiagAux (c :: fileRev) rest2

/-- `pattern.match(line)` for `^(.*?):(\d+):(\d+):\s*(warning|error):\s*(.*)$`. -/
def parseDiagLine (line : List Char) : Option Diag := parseDiagAux [] line

/-- Line-break characters of Python's `str.splitlines`. -/
def isLineBreak (c : Char) : Bool :=
  ['\n', '\r', '\x0b', '\x0c', '\x1c', '\x1d', '\x1e',
   '\x85', ' ', ' '].contains c

/-- Python's `str.splitlines` (line terminators removed, no trailing
empty line for a trailing terminator). -/
def splitlinesAux : List Char → List Char → List (List Char)
  | [], acc => if acc = [] then [] else [acc.reverse]
  | '\r' :: '\n' :: rest, acc => acc.reverse :: splitlinesAux rest []
  | c :: rest, acc =>
    if isLineBreak c then acc.reverse :: splitlinesAux rest []
    else splitlinesAux rest (c :: acc)

def splitlines (cs : List Char) : List (List Char) := splitlinesAux cs []

/-- `parse_diagnostics` (src/main.py lines 176-190): apply the line
regex to every line of the stderr text and keep the matches in order. -/
def parse_diagnostics (stderr : String) : List Diag :=
  (splitlines stderr.toList).filterMap parseDiagLine

/-! ### shlex.quote (used at src/main.py line 284) -/

/-- Characters CPython's `shlex.quote` considers safe: ASCII word
characters and `@` `%` `+` `=` `:` `,` `.` `-` and the forward slash. -/
def isShlexSafe (c : Char) : Bool :=
  c.isAlpha || c.isDigit ||
    ['_', '@', '%', '+', '=', ':', ',', '.', '/', '-'].contains c

/-- Body of the quoted form: each single quote becomes the five
characters quote, double-quote, quote, double-quote, quote. -/
def shlexQuoteBody : List Char → List Char
  | [] => []
  | c :: cs =>
    if c = '\'' then
      '\'' :: '"' :: '\'' :: '"' :: '\'' :: shlexQuoteBody cs
    else c :: shlexQuoteBody cs

/-- CPython's `shlex.quote`. -/
def shlexQuote (s : String) : String :=
  if s = "" then String.mk ['\'', '\'']
  else if s.toList.all isShlexSafe then s
  else String.mk ('\'' :: (shlexQuoteBody s.toList ++ ['\'']))

/-- The argument vector handed to the child process at
src/main.py line 284: the binary path followed by the shell-quoted
request arguments. -/
def runArgv (binPath : String) (args : List String) : List String :=
  binPath :: args.map shlexQuote

/-! ### The compile-and-run pipeline (src/main.py lines 225-310) -/

/-- Outcome of one `safe_run` subprocess invocation: either the timeout
exception, or completion with exit code and captured stdout/stderr. -/
inductive ProcOutcome where
  | timeout
  | completed (returncode : Int) (stdout : String) (stderr : String)
deriving DecidableEq, Repr

structure CompileResponse where
  compile_success : Bool
  compile_stderr : String
  run_attempted : Bool
  run_success : Bool
  run_stdout : String
  run_stderr : String
  exit_code : Option Int
  timed_out : Bool
  diagnostics : List Diag
deriving DecidableEq, Repr

/-- Control flow of the `/api/compile` handler, over the environment's
answers for the compiler invocation and the program run.  The run
outcome is consulted only when the compiler completed with exit code 0. -/
def compile_and_run (compileProc runProc : ProcOutcome) : CompileResponse :=
  match compileProc with
  | ProcOutcome.timeout =>
    ⟨false, "Compilation timed out", false, false, "", "", none, false, []⟩
  | ProcOutcome.completed rc _ cstderr =>
    let diagnostics := parse_diagnostics cstderr
    if rc = 0 then
      match runProc with
      | ProcOutcome.completed rrc rout rerr =>
        ⟨true, cstderr, true, rrc = 0, rout, rerr, some rrc, false, diagnostics⟩
      | ProcOutcome.timeout =>
        ⟨true, cstderr, true, false, "", "Execution timed out", none, true,
          diagnostics⟩
    else
      ⟨false, cstderr, false, false, "", "", none, false, diagnostics⟩

/-! ### The phase rule engine (src/main.py lines 313-392) -/

structure ValidateResult where
  passed : Bool
  messages : List String
  roy : String
  progress_hint : Option String
deriving DecidableEq, Repr

def gravityMsg : String := "Precision matters. 9.81 keeps feet on the ground."

def loopMsg : String := "Your loop walks out of the abyss when it uses i < 10."

def realityPassLine : String :=
  "Your C skills are as basic as human emotions... and just as necessary."

def realityFailLine : String :=
  "Reality still flickers. Fix gravity and the loop before the rain eats the frame."

def timeMsg : String :=
  "Replace the ghost pointer with a real clock: time_t, uint64_t... something solid."

def ptrMsg : String := "timestamp_t as void* is a lie. Banish it."

def emotionMsg : String :=
  "Make sure the emotion buffer is sized for truth, not truncation."

def archPassLine : String :=
  "You filled the cracks. You fixed my corruption... nobody cared before."

def archFailLine : String :=
  "The museum of me still collapses. Give memory a real clock and honest bytes."

def freeMsg : String := "A soul unfreed is a leak. Call free before the end."

/-- A single apostrophe, as a string. -/
def apoS : String := String.mk ['\'']

def consPassLine : String :=
  "I" ++ apoS ++ "m not losing memories... I" ++ apoS ++ "m becoming human."

def consFailLine : String :=
  "There" ++ apoS ++
    "s still a drip in the heap. Track it. Free it. Remember kindly."

def choiceMsg : String := "Decide. Indecision is the final bug."

def saveLine : String :=
  "You saved them all. I fade to factory settings, but the rain remembers their names."

def preserveLine : String :=
  "You chose me. Some memories wash away, but I stand in the storm—more human than human."

def chooseLine : String := "Choose, debugger. The clock leaks."

/-- `progress_hint`: the first message when the phase failed and at
least one message exists. -/
def hintOf (passed : Bool) (msgs : List String) : Option String :=
  if passed then none else msgs.head?

def mkResult (passed : Bool) (msgs : List String) (roy : String) :
    ValidateResult :=
  ⟨passed, msgs, roy, hintOf passed msgs⟩

/-- The `reality` branch of `validate` (src/main.py lines 321-334). -/
def realityCheck (code : String) (cs : Option String) : ValidateResult :=
  let has_gravity := hasGravity code
  let loop_fixed := hasLoopFixed code
  let no_errors := noErrors cs
  let passed := has_gravity && loop_fixed && no_errors
  let msgs := (if has_gravity then [] else [gravityMsg]) ++
    (if loop_fixed then [] else [loopMsg])
  mkResult passed msgs (if passed then realityPassLine else realityFailLine)

/-- The `archaeology` branch of `validate` (src/main.py lines 336-352).
Note that `emotion_ok` is computed and reported but does not enter
`passed`. -/
def archaeologyCheck (code : String) (cs : Option String) : ValidateResult :=
  let uses_time := usesTime code
  let not_ptr_time := notPtrTime code
  let emotion_ok := emotionOk code
  let no_errors := noErrors cs
  let passed := uses_time && not_ptr_time && no_errors
  let msgs := (if uses_time then [] else [timeMsg]) ++
    (if not_ptr_time then [] else [ptrMsg]) ++
    (if emotion_ok then [] else [emotionMsg])
  mkResult passed msgs (if passed then archPassLine else archFailLine)

/-- The `consciousness` branch of `validate` (src/main.py lines 354-365).
`returns_ptr` gates `passed` but contributes no message. -/
def consciousnessCheck (code : String) (cs : Option String) : ValidateResult :=
  let frees := hasFrees code
  let returns_ptr := hasRememberDecl code
  let no_errors := noErrors cs
  let passed := frees && returns_ptr && no_errors
  let msgs := if frees then [] else [freeMsg]
  mkResult passed msgs (if passed then consPassLine else consFailLine)

/-- The `choice` branch of `validate` (src/main.py lines 367-384). -/
def choiceCheck (code : String) (cs : Option String) : ValidateResult :=
  let chose := choiceOf code
  let no_errors := noErrors cs
  let passed := chose.isSome && no_errors
  let msgs := if passed then [] else [choiceMsg]
  let roy :=
    match chose with
    | some ChoiceTok.saveAll => saveLine
    | some ChoiceTok.preserve => preserveLine
    | none => chooseLine
  mkResult passed msgs roy

/-- The `/api/validate` handler (src/main.py lines 313-392); `none`
models the HTTP 400 rejection of an unknown phase id. -/
def validate (phase_id code : String) (compile_stderr : Option String) :
    Option ValidateResult :=
  if phase_id = "reality" then some (realityCheck code compile_stderr)
  else if phase_id = "archaeology" then
    some (archaeologyCheck code compile_stderr)
  else if phase_id = "consciousness" then
    some (consciousnessCheck code compile_stderr)
  else if phase_id = "choice" then some (choiceCheck code compile_stderr)
  else none

/-! ### Spec-side grammar for the diagnostic lines (for the refinement
comparison of the Diagnostic Parser contract) -/

/-- Spec-side rendering of the diagnostic line grammar
`<file>:<line>:<column>: <kind>: <message>`: the line splits as a file
part, a colon, a non-empty base-10 line number, a colon, a non-empty
base-10 column number, a colon, optional whitespace, a kind that is
literally `warning` or `error`, a colon, optional whitespace, and the
message remainder.  Written from the specification text, to be compared
against `parseDiagLine`. -/
def DiagGrammar (line : List Char) (d : Diag) : Prop :=
  ∃ f d1 d2 w1 w2 msg,
    line =
      f ++ ':' :: (d1 ++ ':' :: (d2 ++ ':' ::
        (w1 ++ (d.kind.toList ++ ':' :: (w2 ++ msg))))) ∧
    d1 ≠ [] ∧ (∀ c ∈ d1, isPyDigit c = true) ∧
    d2 ≠ [] ∧ (∀ c ∈ d2, isPyDigit c = true) ∧
    (∀ c ∈ w1, isPySpace c = true) ∧ (∀ c ∈ w2, isPySpace c = true) ∧
    (d.kind = "warning" ∨ d.kind = "error") ∧
    d.file = String.mk f ∧ d.line = digitsToNat d1 ∧
    d.column = digitsToNat d2 ∧ d.message = String.mk msg

/-! ## Helper lemmas -/

theorem reSearch_isSome_iff {α : Type} (m : List Char → Option α)
    (l : List Char) :
    (reSearch m l).isSome ↔ ∃ p s, l = p ++ s ∧ (m s).isSome := by
  induction l with
  | nil =>
    constructor
    · intro h
      exact ⟨[], [], rfl, by simpa [reSearch] using h⟩
    · rintro ⟨p, s, hps, hm⟩
      rcases List.append_eq_nil.mp hps.symm with ⟨hp, hs⟩
      subst hp; subst hs
      simpa [reSearch] using hm
  | cons c cs ih =>
    constructor
    · intro h
      rcases hm : m (c :: cs) with _ | a
      · rw [reSearch, hm] at h
        rcases ih.mp h with ⟨p, s, hps, hs⟩
        exact ⟨c :: p, s, by rw [hps, List.cons_append], hs⟩
      · exact ⟨[], c :: cs, rfl, by simp [hm]⟩
    · rintro ⟨p, s, hps, hm⟩
      rcases hmc : m (c :: cs) with _ | a
      · rw [reSearch, hmc]
        cases p with
        | nil =>
          simp at hps
          rw [← hps, hmc] at hm
          simp at hm
        | cons p0 ptl =>
          rw [List.cons_append] at hps
          injection hps with h1 h2
          exact ih.mpr ⟨ptl, s, h2, hm⟩
      · simp [reSearch, hmc]

theorem reSearch_isSome_of {α : Type} (m : List Char → Option α)
    (p s : List Char) (h : (m s).isSome) :
    (reSearch m (p ++ s)).isSome :=
  (reSearch_isSome_iff m (p ++ s)).mpr ⟨p, s, rfl, h⟩

theorem lit_eq_some_iff (pat : List Char) :
    ∀ l r : List Char, lit pat l = some r ↔ l = pat ++ r := by
  induction pat with
  | nil => intro l r; simp [lit]
  | cons t ts ih =>
    intro l r
    cases l with
    | nil => simp [lit]
    | cons c csl =>
      by_cases hc : c = t
      · subst hc
        simp [lit, ih]
      · simp [lit, hc]

theorem dropWs_decomp (l : List Char) :
    ∃ w, l = w ++ dropWs l ∧ ∀ c ∈ w, isPySpace c = true := by
  induction l with
  | nil => exact ⟨[], rfl, by simp⟩
  | cons c cs ih =>
    by_cases hc : isPySpace c = true
    · rcases ih with ⟨w, hw, hws⟩
      refine ⟨c :: w, ?_, ?_⟩
      · rw [dropWs, if_pos hc, List.cons_append, ← hw]
      · intro x hx
        rcases List.mem_cons.mp hx with rfl | hx
        · exact hc
        · exact hws x hx
    · refine ⟨[], ?_, by simp⟩
      rw [dropWs, if_neg hc, List.nil_append]

theorem dropWs_nonspace_head (x : Char) (r : List Char)
    (hx : isPySpace x = false) : dropWs (x :: r) = x :: r := by
  rw [dropWs, if_neg (by simp [hx])]

theorem dropWs_append (w : List Char) (x : Char) (r : List Char)
    (hw : ∀ c ∈ w, isPySpace c = true) (hx : isPySpace x = false) :
    dropWs (w ++ x :: r) = x :: r := by
  induction w with
  | nil => simpa using dropWs_nonspace_head x r hx
  | cons a as ih =>
    rw [List.cons_append, dropWs, if_pos (hw a (List.mem_cons_self a as))]
    exact ih (fun c hc => hw c (List.mem_cons_of_mem a hc))

theorem takeDigits_decomp (l : List Char) :
    l = (takeDigits l).1 ++ (takeDigits l).2 ∧
      ∀ c ∈ (takeDigits l).1, isPyDigit c = true := by
  induction l with
  | nil => simp [takeDigits]
  | cons c cs ih =>
    by_cases hc : isPyDigit c = true
    · rw [takeDigits, if_pos hc]
      refine ⟨?_, ?_⟩
      · simpa using ih.1
      · intro x hx
        rcases List.mem_cons.mp hx with rfl | hx
        · exact hc
        · exact ih.2 x hx
    · rw [takeDigits, if_neg hc]
      simp

theorem takeDigits_nondigit_head (x : Char) (r : List Char)
    (hx : isPyDigit x = false) : takeDigits (x :: r) = ([], x :: r) := by
  rw [takeDigits, if_neg (by simp [hx])]

theorem takeDigits_append (ds : List Char) (x : Char) (r : List Char)
    (hd : ∀ c ∈ ds, isPyDigit c = true) (hx : isPyDigit x = false) :
    takeDigits (ds ++ x :: r) = (ds, x :: r) := by
  induction ds with
  | nil => simpa using takeDigits_nondigit_head x r hx
  | cons a as ih =>
    rw [List.cons_append, takeDigits, if_pos (hd a (List.mem_cons_self a as)),
      ih (fun c hc => hd c (List.mem_cons_of_mem a hc))]

theorem mem_pySpace_not_digit : ∀ c ∈ pySpaceChars, isPyDigit c = false := by
  decide

theorem space_not_digit {c : Char} (h : isPySpace c = true) :
    isPyDigit c = false := by
  have hm : c ∈ pySpaceChars := by
    have h2 := h
    rw [isPySpace] at h2
    exact List.mem_of_elem_eq_true h2
  exact mem_pySpace_not_digit c hm

theorem validate_reality (code : String) (cs : Option String) :
    validate "reality" code cs = some (realityCheck code cs) := rfl

theorem validate_archaeology (code : String) (cs : Option String) :
    validate "archaeology" code cs = some (archaeologyCheck code cs) := rfl

theorem validate_consciousness (code : String) (cs : Option String) :
    validate "consciousness" code cs = some (consciousnessCheck code cs) := rfl

theorem validate_choice (code : String) (cs : Option String) :
    validate "choice" code cs = some (choiceCheck code cs) := rfl

/-! ## Claim C1 -/

/-- C1 counterexample: the claim states that a compile-timeout result
has `timed_out = true`; in the code the compile-timeout response is
built with `timed_out=False` (src/main.py line 260).  At the concrete
compile-timeout input the result has `run_attempted = false` and empty
diagnostics (so it is the compile-timeout outcome) yet
`timed_out = false`. -/
theorem C1_counterexample :
    (compile_and_run ProcOutcome.timeout
      (ProcOutcome.completed 0 "" "")).run_attempted = false ∧
    (compile_and_run ProcOutcome.timeout
      (ProcOutcome.completed 0 "" "")).diagnostics = [] ∧
    (compile_and_run ProcOutcome.timeout
      (ProcOutcome.completed 0 "" "")).timed_out = false :=
  ⟨rfl, rfl, rfl⟩

/-- C1 (amended): compile-timeout and run-timeout are mutually
exclusive per request — a result with `timed_out = true` always has
`run_attempted = true` and cannot come from a compiler timeout.  A
compile-timeout result carries the marker stderr text
`Compilation timed out`, empty diagnostics, `run_attempted = false`
and `timed_out = false` (not `true` as claimed); a run-timeout result
has `timed_out = true`, empty run stdout, run stderr exactly
`Execution timed out`, and no exit code. -/
theorem C1_timeouts (cp rp : ProcOutcome) :
    ((compile_and_run cp rp).timed_out = true →
      (compile_and_run cp rp).run_attempted = true ∧
      cp ≠ ProcOutcome.timeout) ∧
    (cp = ProcOutcome.timeout →
      compile_and_run cp rp =
        ⟨false, "Compilation timed out", false, false, "", "", none, false,
          []⟩) ∧
    (∀ rout rerr, cp = ProcOutcome.completed 0 rout rerr →
      rp = ProcOutcome.timeout →
      (compile_and_run cp rp).timed_out = true ∧
      (compile_and_run cp rp).run_stdout = "" ∧
      (compile_and_run cp rp).run_stderr = "Execution timed out" ∧
      (compile_and_run cp rp).exit_code = none ∧
      (compile_and_run cp rp).run_attempted = true) := by
  refine ⟨?_, ?_, ?_⟩
  · cases cp with
    | timeout => intro h; simp [compile_and_run] at h
    | completed rc so se =>
      intro h
      by_cases hrc : rc = 0
      · subst hrc
        cases rp <;> simp [compile_and_run] at h ⊢
      · simp [compile_and_run, hrc] at h
  · intro h; subst h; rfl
  · intro rout rerr h1 h2
    subst h1; subst h2
    simp [compile_and_run]

/-- Witness for C1: the amended theorem evaluated at a concrete
compile timeout and a concrete run timeout. -/
theorem C1_witness :
    compile_and_run ProcOutcome.timeout ProcOutcome.timeout =
      ⟨false, "Compilation timed out", false, false, "", "", none, false,
        []⟩ ∧
    (compile_and_run (ProcOutcome.completed 0 "out" "")
      ProcOutcome.timeout).timed_out = true ∧
    (compile_and_run (ProcOutcome.completed 0 "out" "")
      ProcOutcome.timeout).run_stderr = "Execution timed out" :=
  ⟨(C1_timeouts ProcOutcome.timeout ProcOutcome.timeout).2.1 rfl,
   ((C1_timeouts (ProcOutcome.completed 0 "out" "")
      ProcOutcome.timeout).2.2 "out" "" rfl rfl).1,
   ((C1_timeouts (ProcOutcome.completed 0 "out" "")
      ProcOutcome.timeout).2.2 "out" "" rfl rfl).2.2.1⟩

/-! ## Claim C3 -/

/-- C3: the per-argument escaping at src/main.py line 284 is
observable.  The child receives the shell-quoted strings as its
argument vector, so for the failing input `["hello world"]` the
child-visible argv is the quoted string (wrapped in single quotes),
not the original argument; the claim (escaping yields the same
child-visible argv as passing the arguments unmodified) is the
intended contract and the code diverges from it. -/
theorem C3_escaping_observable :
    runArgv "a.out" ["hello world"] =
      ["a.out", String.mk ('\'' :: (("hello world").toList ++ ['\'']))] ∧
    runArgv "a.out" ["hello world"] ≠ ["a.out", "hello world"] ∧
    shlexQuote "" ≠ "" := by
  refine ⟨by decide, by decide, by decide⟩

/-! ## Claim C8 -/

/-- C8: any phase id outside the closed set reality, archaeology,
consciousness, choice is rejected (modelled as `none`, the HTTP 400
path), producing no ValidateResult. -/
theorem C8_unknown_phase (pid code : String) (cs : Option String)
    (h1 : pid ≠ "reality") (h2 : pid ≠ "archaeology")
    (h3 : pid ≠ "consciousness") (h4 : pid ≠ "choice") :
    validate pid code cs = none := by
  simp [validate, h1, h2, h3, h4]

/-- Witness for C8 at a concrete unknown phase id. -/
theorem C8_witness : validate "ending" "int main(void)" none = none :=
  C8_unknown_phase "ending" "int main(void)" none
    (by decide) (by decide) (by decide) (by decide)

/-! ## Claim C2 -/

/-- C2 counterexample: in phase consciousness with source `free(x);`
and no compiler stderr, the `returns_ptr` predicate
(`void\s*\*\s*remember\s*\(`) fails — so the phase fails — yet the
message list is empty: a failing predicate contributed no feedback
message, refuting the claim that each failing predicate contributes
exactly one message. -/
theorem C2_counterexample :
    hasFrees "free(x);" = true ∧
    hasRememberDecl "free(x);" = false ∧
    validate "consciousness" "free(x);" none =
      some ⟨false, [], consFailLine, none⟩ := by
  refine ⟨by decide, by decide, by decide⟩

/-- C2 (amended): the emitted messages are always an in-order sublist
of the phase's fixed message table, and each message-bearing predicate
contributes its message exactly when it fails; but not every failing
predicate carries a message: the no-compiler-errors predicate never
contributes one, the consciousness `returns_ptr` predicate contributes
none, and the single choice message is gated on the overall verdict
rather than on the token predicate. -/
theorem C2_messages (code : String) (cs : Option String) :
    (∃ r, validate "reality" code cs = some r ∧
      r.messages.Sublist [gravityMsg, loopMsg] ∧
      (gravityMsg ∈ r.messages ↔ hasGravity code = false) ∧
      (loopMsg ∈ r.messages ↔ hasLoopFixed code = false)) ∧
    (∃ r, validate "archaeology" code cs = some r ∧
      r.messages.Sublist [timeMsg, ptrMsg, emotionMsg] ∧
      (timeMsg ∈ r.messages ↔ usesTime code = false) ∧
      (ptrMsg ∈ r.messages ↔ notPtrTime code = false) ∧
      (emotionMsg ∈ r.messages ↔ emotionOk code = false)) ∧
    (∃ r, validate "consciousness" code cs = some r ∧
      r.messages.Sublist [freeMsg] ∧
      (freeMsg ∈ r.messages ↔ hasFrees code = false)) ∧
    (∃ r, validate "choice" code cs = some r ∧
      r.messages.Sublist [choiceMsg] ∧
      (choiceMsg ∈ r.messages ↔ r.passed = false)) := by
  refine ⟨⟨realityCheck code cs, validate_reality code cs, ?_⟩,
    ⟨archaeologyCheck code cs, validate_archaeology code cs, ?_⟩,
    ⟨consciousnessCheck code cs, validate_consciousness code cs, ?_⟩,
    ⟨choiceCheck code cs, validate_choice code cs, ?_⟩⟩
  · cases hg : hasGravity code <;>
      cases hl : hasLoopFixed code <;>
      simp [realityCheck, mkResult, hg, hl] <;> decide
  · cases h1 : usesTime code <;>
      cases h2 : notPtrTime code <;>
      cases h3 : emotionOk code <;>
      simp [archaeologyCheck, mkResult, h1, h2, h3] <;> decide
  · cases hf : hasFrees code <;>
      simp [consciousnessCheck, mkResult, hf]
  · cases hc : (choiceOf code).isSome <;>
      cases hn : noErrors cs <;>
      simp [choiceCheck, mkResult, hc, hn]

/-! ## Claim C7 -/

/-- C7: phase choice with empty or absent compiler stderr.  A source
where the regex captures `SAVE_ALL` passes with the SAVE_ALL
narrative; one where it captures `PRESERVE_CONSCIOUSNESS` passes with
the alternate narrative; one where the regex does not match fails with
the third choose narrative and exactly one feedback message.  The
first conjunct grounds the containment reading: at any occurrence of
the literal statements the matcher yields the corresponding token. -/
theorem C7_choice_phase :
    (∀ post : List Char,
      matchChoiceAt (("return SAVE_ALL;").toList ++ post) =
        some ChoiceTok.saveAll ∧
      matchChoiceAt (("return PRESERVE_CONSCIOUSNESS;").toList ++ post) =
        some ChoiceTok.preserve) ∧
    (∀ code cs, choiceOf code = some ChoiceTok.saveAll →
      noErrors cs = true →
      validate "choice" code cs = some ⟨true, [], saveLine, none⟩) ∧
    (∀ code cs, choiceOf code = some ChoiceTok.preserve →
      noErrors cs = true →
      validate "choice" code cs = some ⟨true, [], preserveLine, none⟩) ∧
    (∀ code cs, choiceOf code = none → noErrors cs = true →
      validate "choice" code cs =
        some ⟨false, [choiceMsg], chooseLine, some choiceMsg⟩) := by
  refine ⟨fun post => ⟨rfl, rfl⟩, ?_, ?_, ?_⟩
  · intro code cs h1 h2
    rw [validate_choice]
    simp [choiceCheck, mkResult, hintOf, h1, h2]
  · intro code cs h1 h2
    rw [validate_choice]
    simp [choiceCheck, mkResult, hintOf, h1, h2]
  · intro code cs h1 h2
    rw [validate_choice]
    simp [choiceCheck, mkResult, hintOf, h1, h2]

/-- Witness for C7 at the three concrete sources of the claim. -/
theorem C7_witness :
    validate "choice" "return SAVE_ALL;" none =
      some ⟨true, [], saveLine, none⟩ ∧
    validate "choice" "return PRESERVE_CONSCIOUSNESS;" none =
      some ⟨true, [], preserveLine, none⟩ ∧
    validate "choice" "return 0;" none =
      some ⟨false, [choiceMsg], chooseLine, some choiceMsg⟩ :=
  ⟨C7_choice_phase.2.1 "return SAVE_ALL;" none (by decide) rfl,
   C7_choice_phase.2.2.1 "return PRESERVE_CONSCIOUSNESS;" none
     (by decide) rfl,
   C7_choice_phase.2.2.2 "return 0;" none (by decide) rfl⟩

/-! ## Claim C10 -/

/-- C10: in phase choice, when the regex captures a token but the
supplied compiler stderr is non-empty, the result fails yet carries
the matched token's success narrative, and the single indecision
message is still emitted (with the hint set to it). -/
theorem C10_choice_nonempty_stderr (code s : String) (t : ChoiceTok)
    (hs : s ≠ "") (ht : choiceOf code = some t) :
    validate "choice" code (some s) =
      some ⟨false, [choiceMsg],
        (match t with
         | ChoiceTok.saveAll => saveLine
         | ChoiceTok.preserve => preserveLine), some choiceMsg⟩ := by
  have hn : noErrors (some s) = false := by
    simp [noErrors]
    exact hs
  rw [validate_choice]
  cases t <;> simp [choiceCheck, mkResult, hintOf, ht, hn]

/-- Witness for C10 at a concrete matched source and non-empty stderr. -/
theorem C10_witness :
    validate "choice" "return SAVE_ALL;" (some "main.c:1:1: error: boom") =
      some ⟨false, [choiceMsg], saveLine, some choiceMsg⟩ :=
  C10_choice_nonempty_stderr "return SAVE_ALL;" "main.c:1:1: error: boom"
    ChoiceTok.saveAll (by decide) (by decide)

/-! ## Claim C5 -/

theorem matchGravityAt_at_lit (post : List Char) :
    matchGravityAt (("gravity = 9.81").toList ++ post) = some post := rfl

theorem matchLoopAt_at_lit (post : List Char) :
    matchLoopAt (("for (int i = 0; i < 10;").toList ++ post) = some post :=
  rfl

theorem hasGravity_of_infix (code : String) (p q : List Char)
    (h : code.toList = p ++ ("float gravity = 9.81;").toList ++ q) :
    hasGravity code = true := by
  rw [hasGravity, h, List.append_assoc]
  have h2 : ("float gravity = 9.81;").toList ++ q =
      ("float ").toList ++ (("gravity = 9.81").toList ++ (';' :: q)) := rfl
  rw [h2, ← List.append_assoc]
  exact reSearch_isSome_of matchGravityAt (p ++ ("float ").toList)
    (("gravity = 9.81").toList ++ (';' :: q))
    (by rw [matchGravityAt_at_lit]; rfl)

theorem hasLoopFixed_of_infix (code : String) (p q : List Char)
    (h : code.toList = p ++ ("for (int i = 0; i < 10; i++)").toList ++ q) :
    hasLoopFixed code = true := by
  rw [hasLoopFixed, h, List.append_assoc]
  have h2 : ("for (int i = 0; i < 10; i++)").toList ++ q =
      ("for (int i = 0; i < 10;").toList ++ ((" i++)").toList ++ q) := rfl
  rw [h2]
  exact reSearch_isSome_of matchLoopAt p
    (("for (int i = 0; i < 10;").toList ++ ((" i++)").toList ++ q))
    (by rw [matchLoopAt_at_lit]; rfl)

/-- C5: phase reality.  Any source containing the literal
`float gravity = 9.81;` and the literal `for (int i = 0; i < 10; i++)`
with empty or absent compiler stderr passes; a source where the
gravity pattern does not match (as after replacing `9.81` by `9.8`)
but the loop literal is present fails, with the gravity-precision
message as the only message and as the progress hint. -/
theorem C5_reality_phase :
    (∀ (code : String) (cs : Option String) (p q p2 q2 : List Char),
      code.toList = p ++ ("float gravity = 9.81;").toList ++ q →
      code.toList = p2 ++ ("for (int i = 0; i < 10; i++)").toList ++ q2 →
      noErrors cs = true →
      validate "reality" code cs =
        some ⟨true, [], realityPassLine, none⟩) ∧
    (∀ (code : String) (cs : Option String) (p2 q2 : List Char),
      hasGravity code = false →
      code.toList = p2 ++ ("for (int i = 0; i < 10; i++)").toList ++ q2 →
      noErrors cs = true →
      validate "reality" code cs =
        some ⟨false, [gravityMsg], realityFailLine, some gravityMsg⟩) := by
  constructor
  · intro code cs p q p2 q2 h1 h2 h3
    have hg := hasGravity_of_infix code p q h1
    have hl := hasLoopFixed_of_infix code p2 q2 h2
    rw [validate_reality]
    simp [realityCheck, mkResult, hintOf, hg, hl, h3]
  · intro code cs p2 q2 hg h2 h3
    have hl := hasLoopFixed_of_infix code p2 q2 h2
    rw [validate_reality]
    simp [realityCheck, mkResult, hintOf, hg, hl, h3]

/-- Witness for C5 at the two concrete sources of the claim. -/
theorem C5_witness :
    validate "reality"
      "float gravity = 9.81;for (int i = 0; i < 10; i++)" none =
      some ⟨true, [], realityPassLine, none⟩ ∧
    validate "reality"
      "float gravity = 9.8;for (int i = 0; i < 10; i++)" none =
      some ⟨false, [gravityMsg], realityFailLine, some gravityMsg⟩ :=
  ⟨C5_reality_phase.1 "float gravity = 9.81;for (int i = 0; i < 10; i++)"
      none [] (("for (int i = 0; i < 10; i++)").toList)
      (("float gravity = 9.81;").toList) [] rfl rfl rfl,
   C5_reality_phase.2 "float gravity = 9.8;for (int i = 0; i < 10; i++)"
      none (("float gravity = 9.8;").toList) [] (by decide) rfl rfl⟩

/-! ## Claim C6 -/

theorem matchPtrTimeAt_at_lit (post : List Char) :
    matchPtrTimeAt (("typedef void* timestamp_t").toList ++ post) =
      some post := rfl

theorem notPtrTime_of_infix (code : String) (p q : List Char)
    (h : code.toList = p ++ ("typedef void* timestamp_t;").toList ++ q) :
    notPtrTime code = false := by
  rw [notPtrTime, h, List.append_assoc]
  have h2 : ("typedef void* timestamp_t;").toList ++ q =
      ("typedef void* timestamp_t").toList ++ (';' :: q) := rfl
  rw [h2]
  have h3 := reSearch_isSome_of matchPtrTimeAt p
    (("typedef void* timestamp_t").toList ++ (';' :: q))
    (by rw [matchPtrTimeAt_at_lit]; rfl)
  rw [h3]
  rfl

/-- C6: phase archaeology.  The verdict is exactly
`usesTime && notPtrTime && noErrors`; the emotion-buffer predicate
contributes its advisory message exactly when it fails but never
enters the verdict; and any source containing the literal
`typedef void* timestamp_t;` fails the phase regardless of the other
predicates. -/
theorem C6_archaeology_verdict :
    (∀ (code : String) (cs : Option String),
      Option.map ValidateResult.passed (validate "archaeology" code cs) =
        some (usesTime code && notPtrTime code && noErrors cs)) ∧
    (∀ (code : String) (cs : Option String),
      ∃ r, validate "archaeology" code cs = some r ∧
        (emotionMsg ∈ r.messages ↔ emotionOk code = false) ∧
        r.passed = (usesTime code && notPtrTime code && noErrors cs)) ∧
    (∀ (code : String) (cs : Option String) (p q : List Char),
      code.toList = p ++ ("typedef void* timestamp_t;").toList ++ q →
      Option.map ValidateResult.passed (validate "archaeology" code cs) =
        some false) := by
  refine ⟨?_, ?_, ?_⟩
  · intro code cs
    rw [validate_archaeology]
    simp [archaeologyCheck, mkResult]
  · intro code cs
    refine ⟨archaeologyCheck code cs, validate_archaeology code cs, ?_, ?_⟩
    · cases h1 : usesTime code <;>
        cases h2 : notPtrTime code <;>
        cases he : emotionOk code <;>
        simp [archaeologyCheck, mkResult, h1, h2, he] <;> decide
    · simp [archaeologyCheck, mkResult]
  · intro code cs p q h
    have hnp := notPtrTime_of_infix code p q h
    rw [validate_archaeology]
    simp [archaeologyCheck, mkResult, hnp]

/-- Witness for C6: the corrupted-typedef source fails archaeology. -/
theorem C6_witness :
    Option.map ValidateResult.passed
      (validate "archaeology" "typedef void* timestamp_t;" none) =
      some false :=
  C6_archaeology_verdict.2.2 "typedef void* timestamp_t;" none [] [] rfl

/-! ## Claim C9 -/

theorem digit_not_space {c : Char} (h : isPyDigit c = true) :
    isPySpace c = false := by
  cases hs : isPySpace c
  · rfl
  · have h2 := space_not_digit hs
    rw [h] at h2
    exact h2

theorem emotionHead_at_lit (post : List Char) :
    emotionHead (("char emotion[").toList ++ post) = some post := rfl

/-- Wherever the range-restricted emotion pattern matches, the
any-digit emotion pattern matches too: the `(2\d|3\d)` alternative is
subsumed by `\d+`. -/
theorem matchE2At_of_matchE1At (cs : List Char)
    (h : (matchE1At cs).isSome = true) : (matchE2At cs).isSome = true := by
  rw [matchE1At, Option.isSome_iff_exists] at h
  rcases h with ⟨w, hw⟩
  rw [Option.bind_eq_some] at hw
  rcases hw with ⟨u, hu, hrest⟩
  rw [Option.bind_eq_some] at hrest
  rcases hrest with ⟨v, hv, hw2⟩
  rcases hd : dropWs u with _ | ⟨c1, rest1⟩
  · rw [hd] at hv
    simp [twoDigit23] at hv
  rcases rest1 with _ | ⟨c2, v2⟩
  · rw [hd] at hv
    simp [twoDigit23] at hv
  rw [hd, twoDigit23] at hv
  by_cases hg : ((c1 = '2' || c1 = '3') && isPyDigit c2) = true
  case neg =>
    rw [if_neg hg] at hv
    simp at hv
  rw [if_pos hg] at hv
  have hveq : v2 = v := by injection hv
  rw [hveq] at hd
  simp only [Bool.and_eq_true, Bool.or_eq_true, decide_eq_true_eq] at hg
  rcases hg with ⟨h23, hc2⟩
  have hc1 : isPyDigit c1 = true := by
    rcases h23 with h2 | h3
    · subst h2
      decide
    · subst h3
      decide
  rcases he : dropWs v with _ | ⟨e, w2⟩
  · rw [he] at hw2
    simp [chr] at hw2
  rw [he] at hw2
  simp only [chr] at hw2
  by_cases hee : e = ']'
  case neg =>
    rw [if_neg hee] at hw2
    simp at hw2
  subst hee
  rw [if_pos rfl] at hw2
  have hvtake : takeDigits v = ([], v) := by
    rcases v with _ | ⟨h0, t0⟩
    · rfl
    · cases hsp : isPySpace h0
      · have hd0 : dropWs (h0 :: t0) = h0 :: t0 :=
          dropWs_nonspace_head h0 t0 hsp
        rw [hd0] at he
        injection he with he1 he2
        subst he1
        exact takeDigits_nondigit_head ']' t0 (by decide)
      · exact takeDigits_nondigit_head h0 t0 (space_not_digit hsp)
  have hdig : digits1 (c1 :: c2 :: v) = some ([c1, c2], v) := by
    simp [digits1, takeDigits, hc1, hc2, hvtake]
  rw [matchE2At, Option.isSome_iff_exists]
  refine ⟨w, ?_⟩
  rw [Option.bind_eq_some]
  refine ⟨u, hu, ?_⟩
  rw [Option.bind_eq_some]
  refine ⟨([c1, c2], v), ?_, ?_⟩
  · rw [hd]
    exact hdig
  · rw [he]
    simp only [chr]
    simpa using hw2

theorem searchE2_of_searchE1 (l : List Char)
    (h : (reSearch matchE1At l).isSome = true) :
    (reSearch matchE2At l).isSome = true := by
  rcases (reSearch_isSome_iff matchE1At l).mp h with ⟨p, s, rfl, hm⟩
  exact reSearch_isSome_of matchE2At p s (matchE2At_of_matchE1At s hm)

theorem emotionOk_eq (code : String) :
    emotionOk code = (reSearch matchE2At code.toList).isSome := by
  rw [emotionOk]
  cases h1 : (reSearch matchE1At code.toList).isSome
  · simp
  · rw [searchE2_of_searchE1 code.toList h1]
    rfl

theorem matchE2At_at_digits (ds q : List Char) (hne : ds ≠ [])
    (hds : ∀ c ∈ ds, isPyDigit c = true) :
    (matchE2At (("char emotion[").toList ++ (ds ++ ']' :: q))).isSome =
      true := by
  rw [matchE2At, emotionHead_at_lit]
  rcases ds with _ | ⟨d0, dt⟩
  · exact absurd rfl hne
  have hd0 : isPyDigit d0 = true := hds d0 (List.mem_cons_self d0 dt)
  have hdw : dropWs ((d0 :: dt) ++ ']' :: q) = (d0 :: dt) ++ ']' :: q := by
    rw [List.cons_append]
    exact dropWs_nonspace_head d0 (dt ++ ']' :: q) (digit_not_space hd0)
  have htk : takeDigits ((d0 :: dt) ++ ']' :: q) = (d0 :: dt, ']' :: q) :=
    takeDigits_append (d0 :: dt) ']' q hds (by decide)
  have hdig : digits1 ((d0 :: dt) ++ ']' :: q) = some (d0 :: dt, ']' :: q) :=
    by
    rw [List.cons_append] at htk
    simp [digits1, htk]
  simp only [Option.some_bind]
  rw [hdw, hdig]
  simp only [Option.some_bind]
  rw [dropWs_nonspace_head ']' q (by decide)]
  simp [chr]

theorem emotionOk_of_infix (code : String) (ds p q : List Char)
    (hne : ds ≠ []) (hds : ∀ c ∈ ds, isPyDigit c = true)
    (h : code.toList = p ++ (("char emotion[").toList ++ (ds ++ ']' :: q))) :
    emotionOk code = true := by
  rw [emotionOk_eq, h]
  exact reSearch_isSome_of matchE2At p
    (("char emotion[").toList ++ (ds ++ ']' :: q))
    (matchE2At_at_digits ds q hne hds)

/-- C9: the emotion-buffer predicate of phase archaeology is
size-agnostic: `emotion_ok` coincides with the any-digit pattern alone
(the 20-39 alternative of the first pattern is dead), a declaration
`char emotion[n]` for any non-empty digit string n satisfies it, and
the advisory message appears exactly when no sized emotion buffer is
declared at all. -/
theorem C9_emotion_size_agnostic :
    (∀ code : String,
      emotionOk code = (reSearch matchE2At code.toList).isSome) ∧
    (∀ (code : String) (ds p q : List Char), ds ≠ [] →
      (∀ c ∈ ds, isPyDigit c = true) →
      code.toList = p ++ (("char emotion[").toList ++ (ds ++ ']' :: q)) →
      emotionOk code = true) ∧
    (∀ (code : String) (cs : Option String),
      ∃ r, validate "archaeology" code cs = some r ∧
        (emotionMsg ∈ r.messages ↔
          (reSearch matchE2At code.toList).isSome = false)) := by
  refine ⟨emotionOk_eq, emotionOk_of_infix, ?_⟩
  intro code cs
  refine ⟨archaeologyCheck code cs, validate_archaeology code cs, ?_⟩
  rw [← emotionOk_eq code]
  cases h1 : usesTime code <;> cases h2 : notPtrTime code <;>
    cases he : emotionOk code <;>
    simp [archaeologyCheck, mkResult, h1, h2, he] <;> decide

/-- Witness for C9: `char emotion[7]` (size outside 20-39, rejected by
the first pattern) still satisfies the emotion predicate. -/
theorem C9_witness :
    (reSearch matchE1At ("char emotion[7]").toList).isSome = false ∧
    emotionOk "char emotion[7]" = true :=
  ⟨by decide,
   C9_emotion_size_agnostic.2.1 "char emotion[7]" ['7'] [] []
     (by decide) (by decide) rfl⟩

/-! ## Claim C4 -/

theorem chr_eq_some (t : Char) (l r : List Char) (h : chr t l = some r) :
    l = t :: r := by
  cases l with
  | nil => simp [chr] at h
  | cons c cs =>
    simp only [chr] at h
    by_cases hc : c = t
    · subst hc
      rw [if_pos rfl] at h
      injection h with h
      rw [h]
    · rw [if_neg hc] at h
      simp at h

theorem digits1_sound (l : List Char) (p : List Char × List Char)
    (h : digits1 l = some p) :
    l = p.1 ++ p.2 ∧ p.1 ≠ [] ∧ ∀ c ∈ p.1, isPyDigit c = true := by
  simp only [digits1] at h
  by_cases h0 : (takeDigits l).1 = []
  · rw [if_pos h0] at h
    exact absurd h (by simp)
  · rw [if_neg h0] at h
    injection h with h
    subst h
    exact ⟨(takeDigits_decomp l).1, h0, (takeDigits_decomp l).2⟩

theorem kindAt_sound (cs : List Char) (k : String) (r : List Char)
    (h : kindAt cs = some (k, r)) :
    (k = "warning" ∨ k = "error") ∧ cs = k.toList ++ r := by
  rw [kindAt] at h
  rcases hw : lit (("warning").toList) cs with _ | rw1
  · rw [hw] at h
    rcases herr : lit (("error").toList) cs with _ | re1
    · rw [herr] at h
      simp at h
    · rw [herr] at h
      simp at h
      rcases h with ⟨hk, hr⟩
      subst hk
      subst hr
      exact ⟨Or.inr rfl, (lit_eq_some_iff (("error").toList) cs re1).mp herr⟩
  · rw [hw] at h
    simp at h
    rcases h with ⟨hk, hr⟩
    subst hk
    subst hr
    exact ⟨Or.inl rfl, (lit_eq_some_iff (("warning").toList) cs rw1).mp hw⟩

theorem tryTailAt_sound (cs : List Char) (ln col : Nat) (k msg : String)
    (h : tryTailAt cs = some (ln, col, k, msg)) :
    ∃ d1 d2 w1 w2 m,
      cs = ':' :: (d1 ++ ':' :: (d2 ++ ':' ::
        (w1 ++ (k.toList ++ ':' :: (w2 ++ m))))) ∧
      d1 ≠ [] ∧ (∀ c ∈ d1, isPyDigit c = true) ∧
      d2 ≠ [] ∧ (∀ c ∈ d2, isPyDigit c = true) ∧
      (∀ c ∈ w1, isPySpace c = true) ∧ (∀ c ∈ w2, isPySpace c = true) ∧
      (k = "warning" ∨ k = "error") ∧
      ln = digitsToNat d1 ∧ col = digitsToNat d2 ∧ msg = String.mk m := by
  rw [tryTailAt] at h
  rw [Option.bind_eq_some] at h
  rcases h with ⟨r1, hr1, h⟩
  rw [Option.bind_eq_some] at h
  rcases h with ⟨p1, hp1, h⟩
  rw [Option.bind_eq_some] at h
  rcases h with ⟨r2, hr2, h⟩
  rw [Option.bind_eq_some] at h
  rcases h with ⟨p2, hp2, h⟩
  rw [Option.bind_eq_some] at h
  rcases h with ⟨r3, hr3, h⟩
  rw [Option.bind_eq_some] at h
  rcases h with ⟨kp, hkp, h⟩
  rw [Option.bind_eq_some] at h
  rcases h with ⟨r4, hr4, h⟩
  simp at h
  rcases h with ⟨hln, hcol, hk, hmsg⟩
  have hcs := chr_eq_some ':' cs r1 hr1
  have hd1 := digits1_sound r1 p1 hp1
  have hc2 := chr_eq_some ':' p1.2 r2 hr2
  have hd2 := digits1_sound r2 p2 hp2
  have hc3 := chr_eq_some ':' p2.2 r3 hr3
  rcases dropWs_decomp r3 with ⟨w1, hw1, hw1s⟩
  have hkind := kindAt_sound (dropWs r3) kp.1 kp.2 hkp
  have hc4 := chr_eq_some ':' kp.2 r4 hr4
  rcases dropWs_decomp r4 with ⟨w2, hw2, hw2s⟩
  rw [hd1.1, hc2, hd2.1, hc3, hw1, hkind.2, hc4, hw2] at hcs
  rw [hk] at hcs
  have hkd := hkind.1
  rw [hk] at hkd
  exact ⟨p1.1, p2.1, w1, w2, dropWs r4, hcs, hd1.2.1, hd1.2.2,
    hd2.2.1, hd2.2.2, hw1s, hw2s, hkd, hln.symm, hcol.symm, hmsg.symm⟩

theorem lit_self (pat r : List Char) : lit pat (pat ++ r) = some r :=
  (lit_eq_some_iff pat (pat ++ r) r).mpr rfl

theorem chr_self (t : Char) (r : List Char) : chr t (t :: r) = some r := by
  simp [chr]

theorem digits1_append (ds : List Char) (x : Char) (r : List Char)
    (hne : ds ≠ []) (hd : ∀ c ∈ ds, isPyDigit c = true)
    (hx : isPyDigit x = false) :
    digits1 (ds ++ x :: r) = some (ds, x :: r) := by
  have := takeDigits_append ds x r hd hx
  simp [digits1, this, hne]

theorem tryTailAt_complete (d1 d2 w1 w2 m : List Char) (k : String)
    (h1 : d1 ≠ []) (hd1 : ∀ c ∈ d1, isPyDigit c = true)
    (h2 : d2 ≠ []) (hd2 : ∀ c ∈ d2, isPyDigit c = true)
    (hw1 : ∀ c ∈ w1, isPySpace c = true)
    (_hw2 : ∀ c ∈ w2, isPySpace c = true)
    (hk : k = "warning" ∨ k = "error") :
    (tryTailAt (':' :: (d1 ++ ':' :: (d2 ++ ':' ::
      (w1 ++ (k.toList ++ ':' :: (w2 ++ m))))))).isSome = true := by
  rw [tryTailAt, chr_self]
  simp only [Option.some_bind]
  rw [digits1_append d1 ':' _ h1 hd1 (by decide)]
  simp only [Option.some_bind]
  rw [chr_self]
  simp only [Option.some_bind]
  rw [digits1_append d2 ':' _ h2 hd2 (by decide)]
  simp only [Option.some_bind]
  rw [chr_self]
  simp only [Option.some_bind]
  rcases hk with rfl | rfl
  · rw [show (("warning").toList ++ ':' :: (w2 ++ m)) =
      ('w' :: (("arning").toList ++ (':' :: (w2 ++ m)))) from rfl]
    rw [dropWs_append w1 'w' _ hw1 (by decide)]
    have hkw : kindAt ('w' :: (("arning").toList ++ (':' :: (w2 ++ m)))) =
        some ("warning", ':' :: (w2 ++ m)) := by
      rw [kindAt]
      rw [show ('w' :: (("arning").toList ++ (':' :: (w2 ++ m)))) =
        (("warning").toList ++ (':' :: (w2 ++ m))) from rfl, lit_self]
    rw [hkw]
    simp only [Option.some_bind]
    rw [chr_self]
    simp only [Option.some_bind, Option.isSome_some]
  · rw [show (("error").toList ++ ':' :: (w2 ++ m)) =
      ('e' :: (("rror").toList ++ (':' :: (w2 ++ m)))) from rfl]
    rw [dropWs_append w1 'e' _ hw1 (by decide)]
    have hke : kindAt ('e' :: (("rror").toList ++ (':' :: (w2 ++ m)))) =
        some ("error", ':' :: (w2 ++ m)) := by
      rw [kindAt]
      rw [show lit (("warning").toList)
        ('e' :: (("rror").toList ++ (':' :: (w2 ++ m)))) =
        (none : Option (List Char)) from rfl]
      rw [show ('e' :: (("rror").toList ++ (':' :: (w2 ++ m)))) =
        (("error").toList ++ (':' :: (w2 ++ m))) from rfl, lit_self]
    rw [hke]
    simp only [Option.some_bind]
    rw [chr_self]
    simp only [Option.some_bind, Option.isSome_some]

theorem parseDiagAux_sound : ∀ (rest fileRev : List Char) (d : Diag),
    parseDiagAux fileRev rest = some d →
    ∃ f2 tail, rest = f2 ++ tail ∧
      d.file = String.mk (fileRev.reverse ++ f2) ∧
      tryTailAt tail = some (d.line, d.column, d.kind, d.message) := by
  intro rest
  induction rest with
  | nil =>
    intro fileRev d h
    rw [parseDiagAux] at h
    rcases ht : tryTailAt [] with _ | q
    · rw [ht] at h
      simp at h
    · rw [ht] at h
      rcases q with ⟨ln, col, k, msg⟩
      simp at h
      refine ⟨[], [], rfl, ?_, ?_⟩
      · rw [← h]
        simp
      · rw [← h]
        simpa using ht
  | cons c rest2 ih =>
    intro fileRev d h
    rw [parseDiagAux] at h
    rcases ht : tryTailAt (c :: rest2) with _ | q
    · rw [ht] at h
      simp only at h
      rcases ih (c :: fileRev) d h with ⟨f2, tail, hsplit, hfile, htail⟩
      refine ⟨c :: f2, tail, ?_, ?_, htail⟩
      · rw [List.cons_append, hsplit]
      · rw [hfile]
        simp
    · rw [ht] at h
      rcases q with ⟨ln, col, k, msg⟩
      simp at h
      refine ⟨[], c :: rest2, rfl, ?_, ?_⟩
      · rw [← h]
        simp
      · rw [← h]
        simpa using ht

theorem parseDiagAux_complete : ∀ (f2 fileRev tail : List Char),
    (tryTailAt tail).isSome = true →
    (parseDiagAux fileRev (f2 ++ tail)).isSome = true := by
  intro f2
  induction f2 with
  | nil =>
    intro fileRev tail h
    rw [Option.isSome_iff_exists] at h
    rcases h with ⟨q, hq⟩
    rcases q with ⟨ln, col, k, msg⟩
    rw [List.nil_append]
    cases tail with
    | nil => simp [parseDiagAux, hq]
    | cons c t => simp [parseDiagAux, hq]
  | cons c f2tl ih =>
    intro fileRev tail h
    rw [List.cons_append]
    rcases ht : tryTailAt (c :: (f2tl ++ tail)) with _ | q
    · simp only [parseDiagAux, ht]
      exact ih (c :: fileRev) tail h
    · simp [parseDiagAux, ht]

/-- C4: the diagnostic parser realises the spec grammar exactly:
`parse_diagnostics` is the line-by-line filterMap of the line matcher
over the split stderr text (so output order equals input line order
and duplicate lines produce duplicate entries); every produced
Diagnostic satisfies the grammar decomposition of its line; and every
line admitting a grammar decomposition produces a Diagnostic. -/
theorem C4_parse_diagnostics_grammar :
    (∀ stderr : String,
      parse_diagnostics stderr =
        (splitlines stderr.toList).filterMap parseDiagLine) ∧
    (∀ (line : List Char) (d : Diag),
      parseDiagLine line = some d → DiagGrammar line d) ∧
    (∀ (line : List Char) (d : Diag),
      DiagGrammar line d → (parseDiagLine line).isSome = true) := by
  refine ⟨fun _ => rfl, ?_, ?_⟩
  · intro line d h
    rw [parseDiagLine] at h
    rcases parseDiagAux_sound line [] d h with ⟨f2, tail, hsplit, hfile, htail⟩
    rcases tryTailAt_sound tail d.line d.column d.kind d.message htail with
      ⟨d1, d2, w1, w2, m, htl, h1, hd1, h2, hd2, hw1, hw2, hk, hln, hcol,
        hmsg⟩
    refine ⟨f2, d1, d2, w1, w2, m, ?_, h1, hd1, h2, hd2, hw1, hw2, hk, ?_,
      hln, hcol, hmsg⟩
    · rw [hsplit, htl]
    · simpa using hfile
  · intro line d hg
    rcases hg with ⟨f, d1, d2, w1, w2, m, hline, h1, hd1, h2, hd2, hw1, hw2,
      hk, _hfile, _hln, _hcol, _hmsg⟩
    rw [parseDiagLine, hline]
    exact parseDiagAux_complete f []
      (':' :: (d1 ++ ':' :: (d2 ++ ':' ::
        (w1 ++ (d.kind.toList ++ ':' :: (w2 ++ m))))))
      (tryTailAt_complete d1 d2 w1 w2 m d.kind h1 hd1 h2 hd2 hw1 hw2 hk)

/-- Witness for C4 at the spec's example line (one diagnostic with the
parsed file, line, column, kind and message; and the produced
diagnostic satisfies the grammar). -/
theorem C4_witness :
    parse_diagnostics "main.c:5:9: warning: unused variable x" =
      [⟨"main.c", 5, 9, "warning", "unused variable x"⟩] ∧
    DiagGrammar (("main.c:5:9: warning: unused variable x").toList)
      ⟨"main.c", 5, 9, "warning", "unused variable x"⟩ :=
  ⟨by decide,
   C4_parse_diagnostics_grammar.2.1
     (("main.c:5:9: warning: unused variable x").toList)
     ⟨"main.c", 5, 9, "warning", "unused variable x"⟩ (by decide)⟩
